import Mathlib

/-!
Shallow embedding of the `diederdas` German-article quiz program
(single Go source file `diederdas-go.go`).

Modelling conventions:
* Go `int` counters are modelled as `Nat`: every counter in the program
  starts at zero and is only ever incremented, and no claim involves
  overflow or negative values.
* The Go `map[string]int` (`Stats.WordStats`, zero default on lookup) is
  modelled as an association list `List (String × Nat)` with a
  zero-defaulting lookup (`findStat`) and an in-place increment
  (`bumpStat`), mirroring `q.stats.WordStats[word.Word]++`.
* User interaction is modelled by passing the stream of input lines as a
  `List String`; `none` results model the process-exit path taken when
  the input stream is exhausted (`getInput` calls `os.Exit` on EOF).
* The process-seeded random generator (`math/rand`) is modelled by a
  function `rs : Nat → Nat` supplying the raw random value used at each
  index of `rand.Shuffle`'s Fisher–Yates loop (`j := rs i % (i+1)`).
* Terminal output is not modelled except where a claim is about what is
  reported: the "filter fell back" notice is the `Bool` component of
  `filterWords`, and the guarded percentage displays are modelled as
  `Option ℚ` (`none` = the explicit no-data message path).
-/

namespace Diederdas

/-- Mirrors Go struct `Word` (catalog entry). -/
structure Word where
  word : String
  article : String
  english : String := ""
  category : String := ""
  difficulty : String := ""
  plural : String := ""
deriving DecidableEq, Repr

/-- Mirrors Go struct `Stats` (lifetime statistics record);
`wordStats` models the `map[string]int` of lifetime mistakes per word. -/
structure Stats where
  totalQuizzes : Nat
  totalQuestions : Nat
  correctAnswers : Nat
  wordStats : List (String × Nat)
deriving DecidableEq, Repr

/-- Mirrors Go struct `MistakeInfo`. -/
structure MistakeInfo where
  word : Word
  userAnswer : String
  correctAnswer : String
deriving DecidableEq, Repr

/-- Mirrors the anonymous `sessionStats` struct inside `Quiz`
(the `startTime` field is untranslated real time and carries no claim). -/
structure SessionStats where
  correct : Nat
  total : Nat
  mistakes : List MistakeInfo
deriving DecidableEq, Repr

/-- Zero-defaulting map lookup, the read semantics of
`q.stats.WordStats[w]` for a Go map. -/
def findStat : List (String × Nat) → String → Nat
  | [], _ => 0
  | (k0, v) :: rest, k => if k0 = k then v else findStat rest k

/-- Map increment, the write semantics of `q.stats.WordStats[w]++`
(missing key is created with value 1). -/
def bumpStat : List (String × Nat) → String → List (String × Nat)
  | [], k => [(k, 1)]
  | (k0, v) :: rest, k =>
    if k0 = k then (k0, v + 1) :: rest else (k0, v) :: bumpStat rest k

/-- ASCII lowercasing of one character, the relevant case of
`strings.ToLower` (all strings the program compares are ASCII). -/
def goToLowerChar (c : Char) : Char :=
  if 'A' ≤ c ∧ c ≤ 'Z' then Char.ofNat (c.toNat + 32) else c

/-- Model of `strings.ToLower` (ASCII case, see `goToLowerChar`). -/
def goToLower (s : String) : String := String.mk (s.toList.map goToLowerChar)

/-- ASCII whitespace test, the relevant case of `unicode.IsSpace` used
by `strings.TrimSpace`. -/
def goIsSpace (c : Char) : Bool :=
  c = ' ' ∨ c = '\t' ∨ c = '\n' ∨ c = '\r' ∨ c = '\x0b' ∨ c = '\x0c'

/-- Model of `strings.TrimSpace`: drop leading and trailing whitespace. -/
def goTrimSpace (s : String) : String :=
  String.mk (((s.toList.dropWhile goIsSpace).reverse.dropWhile goIsSpace).reverse)

/-- Model of `strings.EqualFold` restricted to the ASCII difficulty
strings the program compares (case-insensitive equality). -/
def eqFold (a b : String) : Bool := goToLower a == goToLower b

/-- Mirrors `parseArticle`: `switch strings.TrimSpace(strings.ToLower(in))`,
returning the canonical lowercase article; Go's `("", false)` is `none`. -/
def parseArticle (input : String) : Option String :=
  let t := goTrimSpace (goToLower input)
  if t = "1" ∨ t = "die" ∨ t = "f" ∨ t = "fem" ∨ t = "feminine" then some "die"
  else if t = "2" ∨ t = "der" ∨ t = "r" ∨ t = "m" ∨ t = "masc" ∨ t = "masculine" then some "der"
  else if t = "3" ∨ t = "das" ∨ t = "s" ∨ t = "n" ∨ t = "neut" ∨ t = "neuter" then some "das"
  else none

/-- The normalization applied to each answer line in `askQuestion`:
`getInput` trims the line, then `strings.TrimSpace(strings.ToLower(...))`. -/
def normalizeInput (line : String) : String := goTrimSpace (goToLower (goTrimSpace line))

/-- Mirrors `markWrong`: records the mistake in the session and bumps the
word's lifetime mistake count in the statistics record. -/
def markWrong (w : Word) (userArticle : String) (st : Stats) (ss : SessionStats) :
    Stats × SessionStats :=
  ({ st with wordStats := bumpStat st.wordStats w.word },
   { ss with mistakes := ss.mistakes ++ [⟨w, userArticle, w.article⟩] })

/-- The decision taken by one iteration of `askQuestion`'s input loop on
one input line: quit, re-prompt (hint or invalid input), wrong answer
(including skip, recorded as "(skip)"), or correct answer. -/
inductive StepRes where
  | quitStep
  | retry
  | wrongAnswer (userAnswer : String)
  | correctAnswer
deriving DecidableEq, Repr

/-- One iteration of `askQuestion`'s `for` loop, translated branch by
branch from the source (`switch answer { ... }` then `parseArticle`). -/
def answerStep (w : Word) (line : String) : StepRes :=
  let answer := normalizeInput line
  if answer = "q" ∨ answer = "quit" ∨ answer = "exit" then .quitStep
  else if answer = "?" ∨ answer = "h" ∨ answer = "hint" then .retry
  else if answer = "s" ∨ answer = "skip" then .wrongAnswer "(skip)"
  else
    match parseArticle answer with
    | none => .retry
    | some userArticle =>
      if userArticle = w.article then .correctAnswer else .wrongAnswer userArticle

/-- Result of `askQuestion`: Go's `bool` return (`false` = quit quiz,
`true` = question consumed) enriched with whether the answer was correct. -/
inductive AskResult where
  | quitQuiz
  | answered (wasCorrect : Bool)
deriving DecidableEq, Repr

/-- Mirrors `askQuestion`: loops over input lines until the question is
resolved; returns the updated statistics, session state and the unread
remainder of the input stream. `none` models input-stream exhaustion
(`getInput` exits the process). -/
def askQuestion (w : Word) : List String → Stats → SessionStats →
    Option (AskResult × Stats × SessionStats × List String)
  | [], _, _ => none
  | line :: rest, st, ss =>
    match answerStep w line with
    | .quitStep => some (.quitQuiz, st, ss, rest)
    | .retry => askQuestion w rest st ss
    | .wrongAnswer ua =>
      let p := markWrong w ua st ss
      some (.answered false, p.1, p.2, rest)
    | .correctAnswer =>
      some (.answered true, st, { ss with correct := ss.correct + 1 }, rest)

/-- Mirrors the question loop shared by `StartQuiz` and
`ShowPracticeMode`: asks each question in order, tracking `answered`;
on early quit, `sessionStats.total` is set to the number answered so far. -/
def runQuestions : List Word → List String → Stats → SessionStats → Nat →
    Option (Stats × SessionStats × List String)
  | [], ins, st, ss, _ => some (st, ss, ins)
  | w :: qs, ins, st, ss, answered =>
    match askQuestion w ins st ss with
    | none => none
    | some (.quitQuiz, st2, ss2, ins2) => some (st2, { ss2 with total := answered }, ins2)
    | some (.answered _, st2, ss2, ins2) => runQuestions qs ins2 st2 ss2 (answered + 1)

/-- Mirrors `showResults`: a zero-total session only prints
"No answers recorded." and leaves the record untouched; otherwise the
session is folded into the lifetime record. -/
def showResults (st : Stats) (ss : SessionStats) : Stats :=
  if ss.total = 0 then st
  else
    { st with
      totalQuizzes := st.totalQuizzes + 1,
      totalQuestions := st.totalQuestions + ss.total,
      correctAnswers := st.correctAnswers + ss.correct }

/-- The element swap performed by the closure passed to `rng.Shuffle`
(`shuffled[i], shuffled[j] = shuffled[j], shuffled[i]`); identity on
out-of-range indices (never reached by `rand.Shuffle`). -/
def swapAt (l : List α) (i j : Nat) : List α :=
  match l[i]?, l[j]? with
  | some a, some b => (l.set i b).set j a
  | _, _ => l

/-- Fisher–Yates loop of Go's `rand.Shuffle`: for `i` from `n-1` down to
`1`, swap index `i` with `j := rs i % (i+1)`; `rs` supplies the raw
random values. -/
def fyAux (rs : Nat → Nat) : Nat → List α → List α
  | 0, l => l
  | i + 1, l => fyAux rs i (swapAt l (i + 1) (rs (i + 1) % (i + 2)))

/-- Model of `q.rng.Shuffle(len(l), swap)` on a list. -/
def goShuffle (rs : Nat → Nat) (l : List α) : List α := fyAux rs (l.length - 1) l

/-- Mirrors the difficulty filtering at the top of `StartQuiz`; the
`Bool` is `true` exactly when the "No words found for '…'. Using all
levels." notice is printed (empty filter result, fallback to full pool). -/
def filterWords (words : List Word) (difficulty : String) : List Word × Bool :=
  if difficulty = "" then (words, false)
  else
    let filtered := words.filter fun w => eqFold w.difficulty difficulty
    if filtered.isEmpty then (words, true) else (filtered, false)

/-- The pool a quiz session draws from (first component of `filterWords`). -/
def availableWords (words : List Word) (difficulty : String) : List Word :=
  (filterWords words difficulty).1

/-- Mirrors `if numQuestions > len(availableWords) { numQuestions = len(availableWords) }`. -/
def clampCount (numQuestions poolLen : Nat) : Nat :=
  if numQuestions > poolLen then poolLen else numQuestions

/-- The question sequence of a uniform-mode session: shuffle the
available pool, take the first (clamped) `numQuestions` entries. -/
def quizQuestions (words : List Word) (numQuestions : Nat) (difficulty : String)
    (rs : Nat → Nat) : List Word :=
  (goShuffle rs (availableWords words difficulty)).take
    (clampCount numQuestions (availableWords words difficulty).length)

/-- The body of `StartQuiz` after pool selection: reset session stats
(`total := numQuestions` after clamping) and run the question loop. -/
def runQuiz (st : Stats) (words : List Word) (numQuestions : Nat) (difficulty : String)
    (rs : Nat → Nat) (ins : List String) : Option (Stats × SessionStats × List String) :=
  runQuestions (quizQuestions words numQuestions difficulty rs) ins st
    ⟨0, clampCount numQuestions (availableWords words difficulty).length, []⟩ 0

/-- Mirrors `StartQuiz`: filter/fallback, empty-pool early return,
shuffle, question loop, then `showResults`. Returns the lifetime record
after the session (`none` = process exited on input exhaustion). -/
def StartQuiz (st : Stats) (words : List Word) (numQuestions : Nat) (difficulty : String)
    (rs : Nat → Nat) (ins : List String) : Option Stats :=
  if (availableWords words difficulty).isEmpty then some st
  else
    match runQuiz st words numQuestions difficulty rs ins with
    | none => none
    | some (st2, ss2, _) => some (showResults st2 ss2)

/-- Mirrors the `challenging` collection loop in `ShowPracticeMode`:
catalog entries with a positive lifetime mistake count, in catalog order. -/
def challengingWords (st : Stats) (words : List Word) : List Word :=
  words.filter fun w => findStat st.wordStats w.word > 0

/-- Mirrors the repeat computation: `repeats := mistakes + 1; if repeats > 3 { repeats = 3 }`. -/
def practiceRepeats (mistakes : Nat) : Nat :=
  let repeats := mistakes + 1
  if repeats > 3 then 3 else repeats

/-- The weighted expansion pool (`practiceWords` in the source): each
challenging word repeated `practiceRepeats` times, concatenated. -/
def practicePool (st : Stats) (words : List Word) : List Word :=
  (challengingWords st words).flatMap fun w =>
    List.replicate (practiceRepeats (findStat st.wordStats w.word)) w

/-- Number of questions of a practice session:
`numQuestions := 10` clamped to the expansion pool size. -/
def practiceQuestionCount (st : Stats) (words : List Word) : Nat :=
  clampCount 10 (practicePool st words).length

/-- The question sequence of a practice session: shuffle the expansion
pool, take the first `practiceQuestionCount` entries. -/
def practiceQuestions (st : Stats) (words : List Word) (rs : Nat → Nat) : List Word :=
  (goShuffle rs (practicePool st words)).take (practiceQuestionCount st words)

/-- Mirrors `ShowPracticeMode`: nothing-to-practice early return,
weighted expansion, shuffle, question loop, `showResults`. -/
def ShowPracticeMode (st : Stats) (words : List Word) (rs : Nat → Nat)
    (ins : List String) : Option Stats :=
  if (challengingWords st words).isEmpty then some st
  else
    match runQuestions (practiceQuestions st words rs) ins st
        ⟨0, practiceQuestionCount st words, []⟩ 0 with
    | none => none
    | some (st2, ss2, _) => some (showResults st2 ss2)

/-- One menu-driven session request: a quick/custom quiz or practice mode. -/
inductive SessionReq where
  | quiz (numQuestions : Nat) (difficulty : String) (rs : Nat → Nat) (ins : List String)
  | practice (rs : Nat → Nat) (ins : List String)

/-- Dispatch of one session request, as `RunGameLoop` does. -/
def runSession (words : List Word) (st : Stats) : SessionReq → Option Stats
  | .quiz n d rs ins => StartQuiz st words n d rs ins
  | .practice rs ins => ShowPracticeMode st words rs ins

/-- A sequence of quiz/practice sessions threaded through the lifetime
statistics record, as iterations of `RunGameLoop`. -/
def runSessions (words : List Word) : Stats → List SessionReq → Option Stats
  | st, [] => some st
  | st, r :: rest =>
    match runSession words st r with
    | none => none
    | some st2 => runSessions words st2 rest

/-- Mirrors the overall-accuracy display of `ShowDetailedStats`: `none`
models the early "No statistics available yet" return taken when
`TotalQuestions == 0`; otherwise the displayed percentage. -/
def detailedStatsAccuracy (st : Stats) : Option ℚ :=
  if st.totalQuestions = 0 then none
  else some ((st.correctAnswers : ℚ) / (st.totalQuestions : ℚ) * 100)

/-- Mirrors the score display of `showResults`: `none` models the early
"No answers recorded." return taken when `sessionStats.total == 0`;
otherwise the displayed percentage. -/
def sessionScorePercent (ss : SessionStats) : Option ℚ :=
  if ss.total = 0 then none
  else some ((ss.correct : ℚ) / (ss.total : ℚ) * 100)

/-- Minimal JSON value model for the statistics file (`encoding/json`
at the level the program uses it: numbers, objects, null). -/
inductive Json where
  | null
  | num (n : Int)
  | str (s : String)
  | arr (items : List Json)
  | obj (fields : List (String × Json))

/-- Mirrors `SaveStats`'s `json.Encoder.Encode(q.stats)`: the struct is
written as an object keyed by the struct tags. -/
def encodeStats (s : Stats) : Json :=
  .obj [("total_quizzes", .num (s.totalQuizzes : Int)),
        ("total_questions", .num (s.totalQuestions : Int)),
        ("correct_answers", .num (s.correctAnswers : Int)),
        ("word_stats", .obj (s.wordStats.map fun kv => (kv.1, Json.num (kv.2 : Int))))]

/-- Object field lookup used by the decoder model. -/
def lookupField (fields : List (String × Json)) (key : String) : Option Json :=
  match fields.find? fun kv => kv.1 == key with
  | some kv => some kv.2
  | none => none

/-- Decoding of one integer counter field: a missing field leaves the
zero-initialized struct field (the record decoded into comes from
`NewQuiz`); a non-number value is a decode error. Go `int` is modelled
as `Nat` (see module comment), so values coerce via `Int.toNat`. -/
def decodeCount (fields : List (String × Json)) (key : String) : Option Nat :=
  match lookupField fields key with
  | none => some 0
  | some (.num n) => some n.toNat
  | some _ => none

/-- Decoding of the entries of the `word_stats` object. -/
def decodeWordStatsEntries : List (String × Json) → Option (List (String × Nat))
  | [] => some []
  | (k, .num n) :: rest =>
    (decodeWordStatsEntries rest).map fun t => (k, n.toNat) :: t
  | _ => none

/-- Decoding of the `word_stats` field: missing field or JSON `null`
yields the nil map, which `ensureStatsDefaults` replaces by the empty map. -/
def decodeWordStats (fields : List (String × Json)) : Option (List (String × Nat)) :=
  match lookupField fields "word_stats" with
  | none => some []
  | some .null => some []
  | some (.obj entries) => decodeWordStatsEntries entries
  | some _ => none

/-- Model of `json.Decoder.Decode(q.stats)` for the statistics file. -/
def decodeStats (j : Json) : Option Stats :=
  match j with
  | .obj fields =>
    match decodeCount fields "total_quizzes", decodeCount fields "total_questions",
        decodeCount fields "correct_answers", decodeWordStats fields with
    | some tq, some tqu, some ca, some ws => some ⟨tq, tqu, ca, ws⟩
    | _, _, _, _ => none
  | _ => none

/-- Mirrors `SaveStats`: the statistics file content written on save. -/
def SaveStats (s : Stats) : Json := encodeStats s

/-- Mirrors `LoadStats` plus `ensureStatsDefaults`: a missing or
unparsable file yields the fresh zero record. -/
def LoadStats (file : Option Json) : Stats :=
  match file with
  | none => ⟨0, 0, 0, []⟩
  | some j =>
    match decodeStats j with
    | none => ⟨0, 0, 0, []⟩
    | some s => s

/-- Mirrors the digit loop of `strconv.Atoi` (no overflow: Go's overflow
error can only occur far outside the 5–50 window every claim is about). -/
def parseDigits : List Char → Nat → Option Nat
  | [], acc => some acc
  | c :: rest, acc =>
    if c.isDigit then parseDigits rest (acc * 10 + (c.toNat - 48)) else none

/-- Model of `strconv.Atoi`: optional sign, then one or more decimal
digits spanning the whole string; anything else is an error (`none`). -/
def Atoi (s : String) : Option Int :=
  match s.toList with
  | [] => none
  | c :: rest =>
    if c = '-' then
      match rest with
      | [] => none
      | _ => (parseDigits rest 0).map fun n => -(n : Int)
    else if c = '+' then
      match rest with
      | [] => none
      | _ => (parseDigits rest 0).map fun n => (n : Int)
    else (parseDigits (c :: rest) 0).map fun n => (n : Int)

/-- Mirrors the question-count handling of `ShowCustomMenu`:
`num, err := strconv.Atoi(numStr); if err != nil || num < 5 || num > 50 { num = 10 }`
(`numStr` is the `getInput`-trimmed line). -/
def customQuestionCount (line : String) : Int :=
  match Atoi (goTrimSpace line) with
  | none => 10
  | some n => if n < 5 ∨ n > 50 then 10 else n

/-- Mirrors the difficulty-menu `switch` of `ShowCustomMenu`. -/
def parseDifficulty (line : String) : String :=
  let c := goToLower (goTrimSpace line)
  if c = "2" ∨ c = "easy" ∨ c = "e" then "easy"
  else if c = "3" ∨ c = "medium" ∨ c = "m" then "medium"
  else if c = "4" ∨ c = "hard" ∨ c = "h" then "hard"
  else ""

/-- Mirrors `ShowCustomMenu`: parse the two configuration inputs, then
start the quiz with them. -/
def ShowCustomMenu (st : Stats) (words : List Word) (countLine diffLine : String)
    (rs : Nat → Nat) (ins : List String) : Option Stats :=
  StartQuiz st words (customQuestionCount countLine).toNat (parseDifficulty diffLine) rs ins

/-- Decides, from the input stream alone, whether the first question of
a session resolves to the quit command (possibly after hint requests or
invalid inputs, which re-prompt without consuming the question). -/
def firstOutcomeIsQuit (w : Word) : List String → Bool
  | [] => false
  | line :: rest =>
    match answerStep w line with
    | .quitStep => true
    | .retry => firstOutcomeIsQuit w rest
    | _ => false

/-! ### Concrete values used to evaluate the development on sample runs -/

/-- Sample catalog entry (das Haus). -/
def demoHaus : Word := { word := "Haus", article := "das" }

/-- Sample catalog entry (der Tisch). -/
def demoTisch : Word := { word := "Tisch", article := "der" }

/-- Sample catalog entry whose article field is not one of die/der/das. -/
def demoAuto : Word := { word := "Auto", article := "den" }

/-- Sample catalog entry tagged with difficulty "easy". -/
def demoEasy : Word := { word := "Uebung", article := "die", difficulty := "easy" }

/-- The fresh statistics record (`NewQuiz` / missing stats file). -/
def statsZero : Stats := ⟨0, 0, 0, []⟩

/-- The record after one single-question quiz answered wrongly. -/
def statsAfterOneMiss : Stats := ⟨1, 1, 0, [("Haus", 1)]⟩

/-- A sample populated statistics record. -/
def statsDemo : Stats := ⟨3, 10, 7, [("Haus", 2), ("Tisch", 5)]⟩

/-- A degenerate random source (always returns 0). -/
def rngZero : Nat → Nat := fun _ => 0

end Diederdas

namespace Diederdas

/-! ### Shuffle: the Fisher–Yates loop produces a permutation -/

theorem cons_set_perm (a b : α) (l : List α) : ∀ (k : Nat), l[k]? = some a →
    List.Perm (a :: l.set k b) (b :: l) := by
  induction l with
  | nil => intro k h; simp at h
  | cons c t ih =>
    intro k h
    cases k with
    | zero =>
      simp only [List.getElem?_cons_zero, Option.some.injEq] at h
      subst h
      exact List.Perm.swap b c t
    | succ k =>
      simp only [List.getElem?_cons_succ] at h
      have ihk := ih k h
      show List.Perm (a :: c :: t.set k b) (b :: c :: t)
      refine List.Perm.trans (List.Perm.swap c a (t.set k b)) ?_
      refine List.Perm.trans (List.Perm.cons c ihk) ?_
      exact List.Perm.swap b c t

theorem set_set_perm (l : List α) : ∀ (i j : Nat) (a b : α),
    l[i]? = some a → l[j]? = some b → List.Perm ((l.set i b).set j a) l := by
  induction l with
  | nil => intro i j a b hi _; simp at hi
  | cons c t ih =>
    intro i j a b hi hj
    cases i with
    | zero =>
      simp only [List.getElem?_cons_zero, Option.some.injEq] at hi
      subst hi
      cases j with
      | zero =>
        simp only [List.getElem?_cons_zero, Option.some.injEq] at hj
        subst hj
        exact List.Perm.refl _
      | succ j =>
        simp only [List.getElem?_cons_succ] at hj
        exact cons_set_perm b c t j hj
    | succ i =>
      simp only [List.getElem?_cons_succ] at hi
      cases j with
      | zero =>
        simp only [List.getElem?_cons_zero, Option.some.injEq] at hj
        subst hj
        exact cons_set_perm a c t i hi
      | succ j =>
        simp only [List.getElem?_cons_succ] at hj
        exact List.Perm.cons c (ih i j a b hi hj)

theorem swapAt_perm (l : List α) (i j : Nat) : List.Perm (swapAt l i j) l := by
  rcases hi : l[i]? with _ | a <;> rcases hj : l[j]? with _ | b <;>
    simp only [swapAt, hi, hj]
  · exact List.Perm.refl l
  · exact List.Perm.refl l
  · exact List.Perm.refl l
  · exact set_set_perm l i j a b hi hj

theorem fyAux_perm (rs : Nat → Nat) : ∀ (n : Nat) (l : List α),
    List.Perm (fyAux rs n l) l := by
  intro n
  induction n with
  | zero => intro l; exact List.Perm.refl l
  | succ i ih =>
    intro l
    exact (ih _).trans (swapAt_perm l (i + 1) (rs (i + 1) % (i + 2)))

theorem goShuffle_perm (rs : Nat → Nat) (l : List α) : List.Perm (goShuffle rs l) l :=
  fyAux_perm rs (l.length - 1) l

theorem goShuffle_length (rs : Nat → Nat) (l : List α) :
    (goShuffle rs l).length = l.length :=
  (goShuffle_perm rs l).length_eq

/-! ### Question loop invariants -/

theorem clampCount_eq_min (n m : Nat) : clampCount n m = min n m := by
  unfold clampCount
  split <;> omega

theorem clampCount_le (n m : Nat) : clampCount n m ≤ m := by
  unfold clampCount
  split <;> omega

theorem quizQuestions_length (words : List Word) (n : Nat) (d : String) (rs : Nat → Nat) :
    (quizQuestions words n d rs).length = clampCount n (availableWords words d).length := by
  unfold quizQuestions
  rw [List.length_take, goShuffle_length]
  exact Nat.min_eq_left (clampCount_le _ _)

theorem practiceQuestions_length (st : Stats) (words : List Word) (rs : Nat → Nat) :
    (practiceQuestions st words rs).length = practiceQuestionCount st words := by
  unfold practiceQuestions practiceQuestionCount
  rw [List.length_take, goShuffle_length]
  exact Nat.min_eq_left (clampCount_le _ _)

theorem askQuestion_some (w : Word) : ∀ (ins : List String) (st : Stats) (ss : SessionStats)
    (r : AskResult) (st2 : Stats) (ss2 : SessionStats) (ins2 : List String),
    askQuestion w ins st ss = some (r, st2, ss2, ins2) →
    st2.totalQuizzes = st.totalQuizzes ∧ st2.totalQuestions = st.totalQuestions ∧
    st2.correctAnswers = st.correctAnswers ∧ ss2.total = ss.total ∧
    ss2.correct = ss.correct + (if r = .answered true then 1 else 0) ∧
    (r = .quitQuiz → st2 = st ∧ ss2 = ss) := by
  intro ins
  induction ins with
  | nil => intro st ss r st2 ss2 ins2 h; simp [askQuestion] at h
  | cons line rest ih =>
    intro st ss r st2 ss2 ins2 h
    rw [askQuestion] at h
    cases hstep : answerStep w line with
    | quitStep =>
      rw [hstep] at h
      simp only [Option.some.injEq, Prod.mk.injEq] at h
      obtain ⟨hr, hst, hss, hins⟩ := h
      subst hr; subst hst; subst hss
      simp
    | retry =>
      rw [hstep] at h
      exact ih st ss r st2 ss2 ins2 h
    | wrongAnswer ua =>
      rw [hstep] at h
      simp only [Option.some.injEq, Prod.mk.injEq] at h
      obtain ⟨hr, hst, hss, hins⟩ := h
      subst hr; subst hst; subst hss
      simp [markWrong]
    | correctAnswer =>
      rw [hstep] at h
      simp only [Option.some.injEq, Prod.mk.injEq] at h
      obtain ⟨hr, hst, hss, hins⟩ := h
      subst hr; subst hst; subst hss
      simp

theorem runQuestions_some : ∀ (qs : List Word) (ins : List String) (st : Stats)
    (ss : SessionStats) (a : Nat) (st2 : Stats) (ss2 : SessionStats) (ins2 : List String),
    runQuestions qs ins st ss a = some (st2, ss2, ins2) →
    st2.totalQuizzes = st.totalQuizzes ∧ st2.totalQuestions = st.totalQuestions ∧
    st2.correctAnswers = st.correctAnswers ∧
    (ss.correct ≤ a → ss.total = a + qs.length → ss2.correct ≤ ss2.total) := by
  intro qs
  induction qs with
  | nil =>
    intro ins st ss a st2 ss2 ins2 h
    simp only [runQuestions, Option.some.injEq, Prod.mk.injEq] at h
    obtain ⟨hst, hss, hins⟩ := h
    subst hst; subst hss
    refine ⟨rfl, rfl, rfl, ?_⟩
    intro hc ht
    omega
  | cons w qs ih =>
    intro ins st ss a st2 ss2 ins2 h
    rw [runQuestions] at h
    cases hask : askQuestion w ins st ss with
    | none => rw [hask] at h; simp at h
    | some res =>
      obtain ⟨r, stq, ssq, insq⟩ := res
      rw [hask] at h
      have hq := askQuestion_some w ins st ss r stq ssq insq hask
      obtain ⟨e1, e2, e3, e4, e5, _⟩ := hq
      cases r with
      | quitQuiz =>
        simp only [Option.some.injEq, Prod.mk.injEq] at h
        obtain ⟨hst, hss, hins⟩ := h
        subst hst; subst hss
        refine ⟨e1, e2, e3, ?_⟩
        intro hc ht
        simp at e5
        show ssq.correct ≤ a
        omega
      | answered b =>
        have hrec := ih insq stq ssq (a + 1) st2 ss2 ins2 h
        obtain ⟨g1, g2, g3, g4⟩ := hrec
        refine ⟨g1.trans e1, g2.trans e2, g3.trans e3, ?_⟩
        intro hc ht
        apply g4
        · cases b <;> simp at e5 <;> omega
        · simp only [List.length_cons] at ht
          omega

/-! ### Session-level lemmas -/

theorem StartQuiz_inv (st : Stats) (words : List Word) (n : Nat) (d : String)
    (rs : Nat → Nat) (ins : List String) (st2 : Stats)
    (hinv : st.correctAnswers ≤ st.totalQuestions)
    (h : StartQuiz st words n d rs ins = some st2) :
    st2.correctAnswers ≤ st2.totalQuestions := by
  rw [StartQuiz] at h
  split at h
  · simp only [Option.some.injEq] at h
    subst h
    exact hinv
  · cases hrun : runQuiz st words n d rs ins with
    | none => rw [hrun] at h; simp at h
    | some res =>
      obtain ⟨st1, ss1, rest1⟩ := res
      rw [hrun] at h
      simp only [Option.some.injEq] at h
      subst h
      rw [runQuiz] at hrun
      have hs := runQuestions_some _ _ _ _ _ _ _ _ hrun
      obtain ⟨e1, e2, e3, e4⟩ := hs
      have hle : ss1.correct ≤ ss1.total := by
        apply e4
        · exact Nat.le_refl 0
        · show clampCount n (availableWords words d).length =
            0 + (quizQuestions words n d rs).length
          rw [quizQuestions_length]
          omega
      rw [showResults]
      split
      · omega
      · show st1.correctAnswers + ss1.correct ≤ st1.totalQuestions + ss1.total
        omega

theorem ShowPracticeMode_inv (st : Stats) (words : List Word) (rs : Nat → Nat)
    (ins : List String) (st2 : Stats)
    (hinv : st.correctAnswers ≤ st.totalQuestions)
    (h : ShowPracticeMode st words rs ins = some st2) :
    st2.correctAnswers ≤ st2.totalQuestions := by
  rw [ShowPracticeMode] at h
  split at h
  · simp only [Option.some.injEq] at h
    subst h
    exact hinv
  · cases hrun : runQuestions (practiceQuestions st words rs) ins st
        ⟨0, practiceQuestionCount st words, []⟩ 0 with
    | none => rw [hrun] at h; simp at h
    | some res =>
      obtain ⟨st1, ss1, rest1⟩ := res
      rw [hrun] at h
      simp only [Option.some.injEq] at h
      subst h
      have hs := runQuestions_some _ _ _ _ _ _ _ _ hrun
      obtain ⟨e1, e2, e3, e4⟩ := hs
      have hle : ss1.correct ≤ ss1.total := by
        apply e4
        · exact Nat.le_refl 0
        · show practiceQuestionCount st words = 0 + (practiceQuestions st words rs).length
          rw [practiceQuestions_length]
          omega
      rw [showResults]
      split
      · omega
      · show st1.correctAnswers + ss1.correct ≤ st1.totalQuestions + ss1.total
        omega

theorem runSession_inv (words : List Word) (req : SessionReq) (st st2 : Stats)
    (hinv : st.correctAnswers ≤ st.totalQuestions)
    (h : runSession words st req = some st2) :
    st2.correctAnswers ≤ st2.totalQuestions := by
  cases req with
  | quiz n d rs ins => exact StartQuiz_inv st words n d rs ins st2 hinv h
  | practice rs ins => exact ShowPracticeMode_inv st words rs ins st2 hinv h

theorem runSessions_inv (words : List Word) : ∀ (reqs : List SessionReq) (st st2 : Stats),
    st.correctAnswers ≤ st.totalQuestions →
    runSessions words st reqs = some st2 →
    st2.correctAnswers ≤ st2.totalQuestions := by
  intro reqs
  induction reqs with
  | nil =>
    intro st st2 hinv h
    simp only [runSessions, Option.some.injEq] at h
    subst h
    exact hinv
  | cons r rest ih =>
    intro st st2 hinv h
    rw [runSessions] at h
    cases hses : runSession words st r with
    | none => rw [hses] at h; simp at h
    | some stm =>
      rw [hses] at h
      exact ih stm st2 (runSession_inv words r st stm hinv hses) h

theorem askQuestion_quit_of_firstOutcome (w : Word) : ∀ (ins : List String) (st : Stats)
    (ss : SessionStats), firstOutcomeIsQuit w ins = true →
    ∃ ins2, askQuestion w ins st ss = some (.quitQuiz, st, ss, ins2) := by
  intro ins
  induction ins with
  | nil => intro st ss h; simp [firstOutcomeIsQuit] at h
  | cons line rest ih =>
    intro st ss h
    rw [firstOutcomeIsQuit] at h
    rw [askQuestion]
    cases hstep : answerStep w line
    · exact ⟨rest, rfl⟩
    · rw [hstep] at h
      exact ih st ss h
    · rw [hstep] at h
      simp at h
    · rw [hstep] at h
      simp at h

theorem quit_before_answer (st : Stats) (words : List Word) (n : Nat) (d : String)
    (rs : Nat → Nat) (ins : List String) (w : Word) (qs : List Word)
    (hq : quizQuestions words n d rs = w :: qs)
    (hquit : firstOutcomeIsQuit w ins = true) :
    StartQuiz st words n d rs ins = some st := by
  have hne : ¬(availableWords words d).isEmpty = true := by
    intro he
    rw [List.isEmpty_iff] at he
    rw [quizQuestions, he] at hq
    simp [goShuffle, fyAux] at hq
  rw [StartQuiz]
  rw [if_neg hne]
  rw [runQuiz, hq, runQuestions]
  obtain ⟨ins2, hask⟩ := askQuestion_quit_of_firstOutcome w ins st
    ⟨0, clampCount n (availableWords words d).length, []⟩ hquit
  rw [hask]
  rfl

theorem session_fold (st : Stats) (words : List Word) (n : Nat) (d : String)
    (rs : Nat → Nat) (ins : List String) (st1 : Stats) (ss1 : SessionStats)
    (rest1 : List String)
    (hrun : runQuiz st words n d rs ins = some (st1, ss1, rest1))
    (ht : ss1.total ≠ 0) :
    StartQuiz st words n d rs ins = some
      { totalQuizzes := st.totalQuizzes + 1,
        totalQuestions := st.totalQuestions + ss1.total,
        correctAnswers := st.correctAnswers + ss1.correct,
        wordStats := st1.wordStats } := by
  have hqs := hrun
  rw [runQuiz] at hqs
  have hs := runQuestions_some _ _ _ _ _ _ _ _ hqs
  obtain ⟨e1, e2, e3, _⟩ := hs
  have hne : ¬(availableWords words d).isEmpty = true := by
    intro he
    rw [List.isEmpty_iff] at he
    rw [runQuiz, quizQuestions, he] at hrun
    simp only [List.length_nil] at hrun
    have hcl : clampCount n 0 = 0 := by unfold clampCount; split <;> omega
    rw [hcl] at hrun
    simp [goShuffle, fyAux, runQuestions] at hrun
    obtain ⟨_, hss, _⟩ := hrun
    apply ht
    rw [← hss]
  rw [StartQuiz, if_neg hne, hrun]
  show some (showResults st1 ss1) = _
  rw [showResults, if_neg ht, e1, e2, e3]

/-! ### Practice-mode expansion counting -/

theorem count_flatMap_replicate (w : Word) (f : Word → Nat) :
    ∀ (l : List Word), (l.flatMap fun x => List.replicate (f x) x).count w = l.count w * f w := by
  intro l
  induction l with
  | nil => simp
  | cons x t ih =>
    rw [List.flatMap_cons, List.count_append, ih, List.count_cons, List.count_replicate]
    by_cases hxw : x = w
    · subst hxw
      simp [Nat.succ_mul, Nat.add_comm]
    · simp [hxw, Ne.symm hxw]

theorem count_challenging (st : Stats) (words : List Word) (w : Word)
    (hnd : words.Nodup) (hw : w ∈ words) :
    (challengingWords st words).count w =
      if findStat st.wordStats w.word > 0 then 1 else 0 := by
  unfold challengingWords
  by_cases hp : findStat st.wordStats w.word > 0
  · rw [if_pos hp, List.count_filter (by simpa using hp)]
    exact List.count_eq_one_of_mem hnd hw
  · rw [if_neg hp]
    apply List.count_eq_zero_of_not_mem
    intro hmem
    exact hp (by simpa using (List.mem_filter.mp hmem).2)

theorem practiceRepeats_eq_min (m : Nat) : practiceRepeats m = min (m + 1) 3 := by
  show (if m + 1 > 3 then 3 else m + 1) = min (m + 1) 3
  split <;> omega

/-! ### Answer parsing range -/

theorem parseArticle_range (s a : String) (h : parseArticle s = some a) :
    a = "die" ∨ a = "der" ∨ a = "das" := by
  simp only [parseArticle] at h
  split at h
  · simp only [Option.some.injEq] at h; exact Or.inl h.symm
  · split at h
    · simp only [Option.some.injEq] at h; exact Or.inr (Or.inl h.symm)
    · split at h
      · simp only [Option.some.injEq] at h; exact Or.inr (Or.inr h.symm)
      · simp at h

theorem answerStep_correct_range (w : Word) (line : String)
    (h : answerStep w line = .correctAnswer) :
    w.article = "die" ∨ w.article = "der" ∨ w.article = "das" := by
  simp only [answerStep] at h
  split at h
  · simp at h
  · split at h
    · simp at h
    · split at h
      · simp at h
      · cases hp : parseArticle (normalizeInput line) with
        | none => rw [hp] at h; simp at h
        | some ua =>
          rw [hp] at h
          have h2 : (if ua = w.article then StepRes.correctAnswer
              else StepRes.wrongAnswer ua) = StepRes.correctAnswer := h
          by_cases hart : ua = w.article
          · rw [← hart]
            exact parseArticle_range _ ua hp
          · rw [if_neg hart] at h2
            exact absurd h2 (by simp)

/-! ### Statistics file round trip -/

theorem decodeWordStatsEntries_roundtrip : ∀ (l : List (String × Nat)),
    decodeWordStatsEntries (l.map fun kv => (kv.1, Json.num (kv.2 : Int))) = some l := by
  intro l
  induction l with
  | nil => rfl
  | cons kv t ih =>
    obtain ⟨k, v⟩ := kv
    simp only [List.map_cons]
    rw [decodeWordStatsEntries, ih]
    simp

theorem decodeStats_encodeStats (s : Stats) : decodeStats (encodeStats s) = some s := by
  obtain ⟨tq, tqu, ca, ws⟩ := s
  have h := decodeWordStatsEntries_roundtrip ws
  simp only [encodeStats, decodeStats, decodeCount, decodeWordStats, lookupField,
    List.find?]
  simp only [show (("total_quizzes" == "total_quizzes") = true) from rfl,
    show (("total_quizzes" == "total_questions") = false) from rfl,
    show (("total_quizzes" == "correct_answers") = false) from rfl,
    show (("total_quizzes" == "word_stats") = false) from rfl,
    show (("total_questions" == "total_questions") = true) from rfl,
    show (("total_questions" == "correct_answers") = false) from rfl,
    show (("total_questions" == "word_stats") = false) from rfl,
    show (("correct_answers" == "correct_answers") = true) from rfl,
    show (("correct_answers" == "word_stats") = false) from rfl,
    show (("word_stats" == "word_stats") = true) from rfl]
  rw [h]
  simp

/-! ### Claims -/

/-- C1, counterexample to the claim as stated: a session ended by the
quit command before any answer still reaches `showResults` (session
completion), yet the lifetime record is returned unchanged — in
particular `totalQuizzes` is not incremented. -/
theorem claim_C1_counterexample :
    StartQuiz statsZero [demoHaus] 1 "" rngZero ["q"] = some statsZero ∧
      ¬StartQuiz statsZero [demoHaus] 1 "" rngZero ["q"] =
        some { statsZero with totalQuizzes := statsZero.totalQuizzes + 1 } := by
  constructor
  · rfl
  · intro hcon
    rw [show StartQuiz statsZero [demoHaus] 1 "" rngZero ["q"] = some statsZero from rfl] at hcon
    simp only [Option.some.injEq] at hcon
    have h2 := congrArg Stats.totalQuizzes hcon
    simp [statsZero] at h2

/-- C1 (amended): on session completion with at least one answered
question (`sessionStats.total ≠ 0`), the lifetime record is updated by
`totalQuizzes += 1`, `totalQuestions += totalAnswered` and
`correctAnswers += correctCount`, where the session's total is the
number of questions actually answered. A session quit with zero
answered questions leaves the record unchanged instead. -/
theorem claim_C1 (st : Stats) (words : List Word) (n : Nat) (d : String)
    (rs : Nat → Nat) (ins : List String) (st1 : Stats) (ss1 : SessionStats)
    (rest1 : List String)
    (hrun : runQuiz st words n d rs ins = some (st1, ss1, rest1))
    (ht : ss1.total ≠ 0) :
    StartQuiz st words n d rs ins = some
      { totalQuizzes := st.totalQuizzes + 1,
        totalQuestions := st.totalQuestions + ss1.total,
        correctAnswers := st.correctAnswers + ss1.correct,
        wordStats := st1.wordStats } :=
  session_fold st words n d rs ins st1 ss1 rest1 hrun ht

/-- Witness for C1: a one-question session answered correctly folds
`+1/+1/+1` into the fresh record. -/
theorem claim_C1_witness :
    StartQuiz statsZero [demoHaus] 1 "" rngZero ["3"] =
      some { totalQuizzes := 1, totalQuestions := 1, correctAnswers := 1, wordStats := [] } :=
  claim_C1 statsZero [demoHaus] 1 "" rngZero ["3"] statsZero ⟨1, 1, []⟩ [] (by rfl) (by decide)

/-- C2: starting from a record with `correctAnswers ≤ totalQuestions`,
any sequence of quiz and practice sessions — including sessions ended
early by the quit command — preserves `correctAnswers ≤ totalQuestions`. -/
theorem claim_C2 (words : List Word) (reqs : List SessionReq) (st st2 : Stats)
    (hinv : st.correctAnswers ≤ st.totalQuestions)
    (h : runSessions words st reqs = some st2) :
    st2.correctAnswers ≤ st2.totalQuestions :=
  runSessions_inv words reqs st st2 hinv h

/-- Witness for C2: one single-question session answered wrongly. -/
theorem claim_C2_witness :
    statsZero.correctAnswers ≤ statsZero.totalQuestions ∧
      statsAfterOneMiss.correctAnswers ≤ statsAfterOneMiss.totalQuestions :=
  ⟨by decide, claim_C2 [demoHaus] [.quiz 1 "" rngZero ["1"]] statsZero statsAfterOneMiss
    (by decide) (by rfl)⟩

/-- C3: for a non-empty duplicate-free catalog and any requested count,
a uniform-mode session with no difficulty filter asks exactly
`min(requested, |catalog|)` questions, which form a prefix of a
permutation of the catalog and contain no repeats. -/
theorem claim_C3 (words : List Word) (req : Nat) (rs : Nat → Nat)
    (hne : words ≠ []) (hnd : words.Nodup) :
    ∃ p : List Word, List.Perm p words ∧
      quizQuestions words req "" rs = p.take req ∧
      (quizQuestions words req "" rs).length = min req words.length ∧
      (quizQuestions words req "" rs).Nodup := by
  have havail : availableWords words "" = words := rfl
  have hp : (goShuffle rs words).Nodup := ((goShuffle_perm rs words).nodup_iff).mpr hnd
  refine ⟨goShuffle rs words, goShuffle_perm rs words, ?_, ?_, ?_⟩
  · show (goShuffle rs (availableWords words "")).take
        (clampCount req (availableWords words "").length) = _
    rw [havail]
    by_cases hle : req ≤ words.length
    · rw [clampCount_eq_min, Nat.min_eq_left hle]
    · rw [clampCount_eq_min, Nat.min_eq_right (by omega),
        List.take_of_length_le (Nat.le_of_eq (goShuffle_length rs words)),
        List.take_of_length_le (by rw [goShuffle_length]; omega)]
  · rw [quizQuestions_length, havail, clampCount_eq_min]
  · show ((goShuffle rs (availableWords words "")).take
        (clampCount req (availableWords words "").length)).Nodup
    rw [havail]
    exact (List.take_sublist _ _).nodup hp

/-- Witness for C3: a 2-word catalog with 5 requested questions yields
2 distinct questions. -/
theorem claim_C3_witness :
    (quizQuestions [demoHaus, demoTisch] 5 "" rngZero).length =
        min 5 ([demoHaus, demoTisch] : List Word).length ∧
      (quizQuestions [demoHaus, demoTisch] 5 "" rngZero).Nodup := by
  obtain ⟨p, hperm, htake, hlen, hnodup⟩ :=
    claim_C3 [demoHaus, demoTisch] 5 rngZero (by decide) (by decide)
  exact ⟨hlen, hnodup⟩

/-- C4: in weighted practice mode, a catalog word with lifetime mistake
count `m > 0` contributes exactly `min(m+1, 3)` copies to the expansion
pool, a word with `m = 0` contributes zero copies and is excluded from
the candidate set, and the number of questions asked is
`min(10, |expansion pool|)`. -/
theorem claim_C4 (st : Stats) (words : List Word) (w : Word) (rs : Nat → Nat)
    (hnd : words.Nodup) (hw : w ∈ words) :
    (practicePool st words).count w =
      (if findStat st.wordStats w.word > 0
        then min (findStat st.wordStats w.word + 1) 3 else 0) ∧
    (findStat st.wordStats w.word = 0 → w ∉ challengingWords st words) ∧
    practiceQuestionCount st words = min 10 (practicePool st words).length ∧
    (practiceQuestions st words rs).length = min 10 (practicePool st words).length := by
  refine ⟨?_, ?_, ?_, ?_⟩
  · unfold practicePool
    rw [count_flatMap_replicate w (fun x => practiceRepeats (findStat st.wordStats x.word)),
      count_challenging st words w hnd hw]
    by_cases hp : findStat st.wordStats w.word > 0
    · simp [hp, practiceRepeats_eq_min]
    · simp [hp]
  · intro h0 hmem
    have h2 := (List.mem_filter.mp hmem).2
    rw [h0] at h2
    simp at h2
  · exact clampCount_eq_min 10 _
  · rw [practiceQuestions_length]
    exact clampCount_eq_min 10 _

/-- Witness for C4: with 5 lifetime mistakes, Tisch contributes
`min(6, 3) = 3` copies. -/
theorem claim_C4_witness :
    (practicePool statsDemo [demoHaus, demoTisch]).count demoTisch =
      (if findStat statsDemo.wordStats demoTisch.word > 0
        then min (findStat statsDemo.wordStats demoTisch.word + 1) 3 else 0) ∧
    (findStat statsDemo.wordStats demoTisch.word = 0 →
      demoTisch ∉ challengingWords statsDemo [demoHaus, demoTisch]) ∧
    practiceQuestionCount statsDemo [demoHaus, demoTisch] =
      min 10 (practicePool statsDemo [demoHaus, demoTisch]).length ∧
    (practiceQuestions statsDemo [demoHaus, demoTisch] rngZero).length =
      min 10 (practicePool statsDemo [demoHaus, demoTisch]).length :=
  claim_C4 statsDemo [demoHaus, demoTisch] demoTisch rngZero (by decide) (by decide)

/-- C5: a difficulty filter matching zero catalog entries makes the
engine fall back to the full unfiltered catalog with the user
notification flag set, and the session still draws
`min(requested, |catalog|)` questions from the full pool. -/
theorem claim_C5 (words : List Word) (difficulty : String) (n : Nat) (rs : Nat → Nat)
    (hd : difficulty ≠ "")
    (hfil : words.filter (fun w => eqFold w.difficulty difficulty) = []) :
    filterWords words difficulty = (words, true) ∧
    availableWords words difficulty = words ∧
    (quizQuestions words n difficulty rs).length = min n words.length := by
  have hfw : filterWords words difficulty = (words, true) := by
    simp [filterWords, hd, hfil]
  have havail : availableWords words difficulty = words := by
    unfold availableWords
    rw [hfw]
  refine ⟨hfw, havail, ?_⟩
  rw [quizQuestions_length, havail, clampCount_eq_min]

/-- Witness for C5: a catalog holding only an "easy" word, filtered for
"hard". -/
theorem claim_C5_witness :
    filterWords [demoEasy] "hard" = ([demoEasy], true) ∧
    availableWords [demoEasy] "hard" = [demoEasy] ∧
    (quizQuestions [demoEasy] 3 "hard" rngZero).length =
      min 3 ([demoEasy] : List Word).length :=
  claim_C5 [demoEasy] "hard" 3 rngZero (by decide) (by rfl)

/-- C6: the overall-accuracy display and the session-score display are
`none` (the explicit no-data message) exactly when their denominator is
zero — neither ever divides by zero. -/
theorem claim_C6 (st : Stats) (ss : SessionStats) :
    (detailedStatsAccuracy st = none ↔ st.totalQuestions = 0) ∧
      (sessionScorePercent ss = none ↔ ss.total = 0) := by
  refine ⟨?_, ?_⟩
  · unfold detailedStatsAccuracy
    split
    · rename_i h; simp [h]
    · rename_i h; simp [h]
  · unfold sessionScorePercent
    split
    · rename_i h; simp [h]
    · rename_i h; simp [h]

/-- Witness for C6 at the fresh record and an empty session. -/
theorem claim_C6_witness :
    (detailedStatsAccuracy statsZero = none ↔ statsZero.totalQuestions = 0) ∧
      (sessionScorePercent ⟨0, 0, []⟩ = none ↔ SessionStats.total ⟨0, 0, []⟩ = 0) :=
  claim_C6 statsZero ⟨0, 0, []⟩

/-- C7: saving a statistics record and loading it back reproduces the
record exactly — identical totals and identical mistake-count mapping. -/
theorem claim_C7 (s : Stats) : LoadStats (some (SaveStats s)) = s := by
  show (match decodeStats (encodeStats s) with
    | none => (⟨0, 0, 0, []⟩ : Stats)
    | some s2 => s2) = s
  rw [decodeStats_encodeStats]

/-- Witness for C7 on a populated record. -/
theorem claim_C7_witness : LoadStats (some (SaveStats statsDemo)) = statsDemo :=
  claim_C7 statsDemo

/-- C8: a custom-quiz count input that does not parse as an integer in
`[5, 50]` is replaced by the documented default of 10, and the quiz
proceeds with 10 questions. -/
theorem claim_C8 (line : String) (st : Stats) (words : List Word) (diffLine : String)
    (rs : Nat → Nat) (ins : List String)
    (h : ∀ n : Int, Atoi (goTrimSpace line) = some n → n < 5 ∨ n > 50) :
    customQuestionCount line = 10 ∧
      ShowCustomMenu st words line diffLine rs ins =
        StartQuiz st words 10 (parseDifficulty diffLine) rs ins := by
  have hc : customQuestionCount line = 10 := by
    unfold customQuestionCount
    cases ha : Atoi (goTrimSpace line) with
    | none => rfl
    | some n =>
      show (if n < 5 ∨ n > 50 then (10 : Int) else n) = 10
      rw [if_pos (h n ha)]
  refine ⟨hc, ?_⟩
  unfold ShowCustomMenu
  rw [hc]
  rfl

/-- Witness for C8: the non-numeric input "abc". -/
theorem claim_C8_witness :
    customQuestionCount "abc" = 10 ∧
      ShowCustomMenu statsZero [demoHaus] "abc" "1" rngZero ["3"] =
        StartQuiz statsZero [demoHaus] 10 (parseDifficulty "1") rngZero ["3"] :=
  claim_C8 "abc" statsZero [demoHaus] "1" rngZero ["3"]
    (by
      intro n hn
      rw [show Atoi (goTrimSpace "abc") = none from rfl] at hn
      cases hn)

/-- C9: for a catalog entry whose article is not one of the lowercase
strings die/der/das, no user input is ever graded correct — every
resolved answer for that question is marked wrong. -/
theorem claim_C9 (w : Word) (ins : List String) (st : Stats) (ss : SessionStats)
    (b : Bool) (st2 : Stats) (ss2 : SessionStats) (ins2 : List String)
    (hart : ¬(w.article = "die" ∨ w.article = "der" ∨ w.article = "das"))
    (h : askQuestion w ins st ss = some (.answered b, st2, ss2, ins2)) :
    b = false := by
  have main : ∀ (ins : List String) (st : Stats) (ss : SessionStats)
      (st2 : Stats) (ss2 : SessionStats) (ins2 : List String),
      askQuestion w ins st ss = some (.answered b, st2, ss2, ins2) → b = false := by
    intro ins
    induction ins with
    | nil => intro st ss st2 ss2 ins2 h; simp [askQuestion] at h
    | cons line rest ih =>
      intro st ss st2 ss2 ins2 h
      rw [askQuestion] at h
      cases hstep : answerStep w line
      · rw [hstep] at h
        simp at h
      · rw [hstep] at h
        exact ih st ss st2 ss2 ins2 h
      · rw [hstep] at h
        simp only [Option.some.injEq, Prod.mk.injEq, AskResult.answered.injEq] at h
        exact h.1.symm
      · exact absurd (answerStep_correct_range w line hstep) hart
  exact main ins st ss st2 ss2 ins2 h

/-- Witness for C9: the entry with article "den", answered "2" (der),
is graded wrong. -/
theorem claim_C9_witness :
    (¬(demoAuto.article = "die" ∨ demoAuto.article = "der" ∨ demoAuto.article = "das")) ∧
      false = false :=
  ⟨by decide, claim_C9 demoAuto ["2"] statsZero ⟨0, 1, []⟩ false _ _ _ (by decide) (by rfl)⟩

/-- C10: a session whose first question resolves to the quit command
(possibly after hints or invalid inputs, with zero questions answered)
leaves the lifetime record completely unchanged — no totals, no
`totalQuizzes` increment, no mistake counts. -/
theorem claim_C10 (st : Stats) (words : List Word) (n : Nat) (d : String)
    (rs : Nat → Nat) (ins : List String) (w : Word) (qs : List Word)
    (hq : quizQuestions words n d rs = w :: qs)
    (hquit : firstOutcomeIsQuit w ins = true) :
    StartQuiz st words n d rs ins = some st :=
  quit_before_answer st words n d rs ins w qs hq hquit

/-- Witness for C10: hint request, then quit, on a non-fresh record. -/
theorem claim_C10_witness :
    StartQuiz statsAfterOneMiss [demoHaus] 1 "" rngZero ["?", "q"] =
      some statsAfterOneMiss :=
  claim_C10 statsAfterOneMiss [demoHaus] 1 "" rngZero ["?", "q"] demoHaus []
    (by rfl) (by rfl)

end Diederdas
